import Mathlib

/-!
# Verification of the PDC monitor aggregation pipeline

Shallow embedding of `pdc_scraper.py`: the five source adapters
(HoopDirt, Google News, NCAA Market, College Confidential, Reddit),
the keyword classifier, the URL deduplication, and the Slack summary
presenter.  Feeds are modelled as already-fetched data; a fetch that
raises is an `Except.error`, a per-entry unparsable publish date is
`published = none` (in Python, `datetime.strptime` raising inside the
loop, caught by the source-level handler).  Dates are epoch seconds
as integers; `timedelta(hours=24)` is `86400`.
-/

/-- Substring occurrence on character lists: Python's `needle in haystack`. -/
def occursIn (needle : List Char) : List Char → Bool
  | [] => needle.isEmpty
  | c :: rest => needle.isPrefixOf (c :: rest) || occursIn needle rest

/-- ASCII lowercasing of a string, as Python `str.lower()` on the texts involved. -/
def lowerStr (s : String) : List Char :=
  s.data.map Char.toLower

/-- `COACHING_KEYWORDS` (defined in the source; never consulted by any source adapter). -/
def COACHING_KEYWORDS : List String :=
  ["Player Development", "Mental Performance", "Life Skills",
   "Head Coach", "Assistant Coach", "Director of Operations",
   "Basketball", "Athlete Development"]

/-- `PAIN_KEYWORDS`. -/
def PAIN_KEYWORDS : List String :=
  ["quit", "confidence", "anxiety", "scared", "nervous", "toxic coach",
   "unfair", "politics", "bench", "playing time", "struggling", "lost passion"]

/-- `WEALTH_KEYWORDS`. -/
def WEALTH_KEYWORDS : List String :=
  ["prep school", "tuition", "private school", "boarding school",
   "consultant", "recruiting service", "showcase", "ivy league",
   "financial aid", "investment", "is it worth it", "advisor"]

/-- `is_relevant(text, keyword_list)`: any keyword (lowercased) occurs in the
lowercased text; an empty text is never relevant. -/
def is_relevant (text : String) (keyword_list : List String) : Bool :=
  if text = "" then false
  else keyword_list.any (fun keyword => occursIn (lowerStr keyword) (lowerStr text))

/-- One opportunity record, as appended to `found_opps`. -/
structure Opp where
  source : String
  title : String
  url : String
  summary : String
  type : String
  deriving DecidableEq, Repr

/-- A raw feed entry as seen by the feedparser-based adapters.  `published`
is the parsed publish date in epoch seconds; `none` models an absent or
unparsable date (where the Python `strptime` would raise). -/
structure Entry where
  title : String
  link : String
  published : Option Int
  deriving DecidableEq, Repr

/-- A raw Reddit post (`post['data']`).  `created` is the post date, which
the code never reads. -/
structure RedditPost where
  title : String
  selftext : String
  permalink : String
  created : Int
  deriving DecidableEq, Repr

/-- A fetched feed: `Except.error` models the fetch itself raising. -/
abbrev Feed := Except String (List Entry)

/-- `timedelta(hours=24)` in seconds. -/
def HOOP_WINDOW : Int := 24 * 3600

/-- The HoopDirt opportunity built for one entry. -/
def mkHoopOpp (e : Entry) : Opp :=
  { source := "HoopDirt", title := e.title, url := e.link,
    summary := "🏀 Coaching Move / Industry Rumor", type := "industry" }

/-- The `for entry in feed.entries` loop of `get_hoopdirt_news`: a `none`
date makes `strptime` raise, which aborts the loop (the entries already
appended stay in `found_opps`); an entry strictly older than 24 hours is
skipped. -/
def hoopLoop (now : Int) : List Entry → List Opp
  | [] => []
  | e :: rest =>
    match e.published with
    | none => []
    | some t =>
      if now - t > HOOP_WINDOW then hoopLoop now rest
      else mkHoopOpp e :: hoopLoop now rest

/-- `get_hoopdirt_news`: per-source try/except, so a failed fetch yields
nothing. -/
def get_hoopdirt_news (now : Int) (feed : Feed) : List Opp :=
  match feed with
  | .error _ => []
  | .ok entries => hoopLoop now entries

/-- The Google News opportunity for one entry under a query's label. -/
def mkGoogleOpp (summary type_ : String) (e : Entry) : Opp :=
  { source := "Google News", title := e.title, url := e.link,
    summary := summary, type := type_ }

/-- One Google News query: top 5 entries, each appended unconditionally;
its own try/except, so a failed fetch yields nothing. -/
def googleQuery (summary type_ : String) (feed : Feed) : List Opp :=
  match feed with
  | .error _ => []
  | .ok entries => (entries.take 5).map (mkGoogleOpp summary type_)

/-- `get_google_alerts`: the vacancy query then the wealth-partner query. -/
def get_google_alerts (jobFeed partnerFeed : Feed) : List Opp :=
  googleQuery "📰 Job Vacancy" "industry" jobFeed
    ++ googleQuery "🤝 Potential Wealth Partner" "partner" partnerFeed

/-- The NCAA Market per-entry condition:
`"basketball" in entry.title.lower() or "development" in entry.title.lower()`. -/
def ncaaCond (e : Entry) : Bool :=
  occursIn "basketball".data (lowerStr e.title) || occursIn "development".data (lowerStr e.title)

/-- The NCAA Market opportunity for one entry. -/
def mkNcaaOpp (e : Entry) : Opp :=
  { source := "NCAA Market", title := e.title, url := e.link,
    summary := "🎓 Collegiate Role", type := "industry" }

/-- `get_ncaa_market`: keyword-filtered on the title, no date check. -/
def get_ncaa_market (feed : Feed) : List Opp :=
  match feed with
  | .error _ => []
  | .ok entries => (entries.filter ncaaCond).map mkNcaaOpp

/-- The College Confidential opportunity for one entry. -/
def mkCcOpp (e : Entry) : Opp :=
  { source := "College Confidential", title := e.title, url := e.link,
    summary := "💰 High-Net-Worth Discussion", type := "wealth" }

/-- `get_college_confidential`: top 10 entries, appended unconditionally. -/
def get_college_confidential (feed : Feed) : List Opp :=
  match feed with
  | .error _ => []
  | .ok entries => (entries.take 10).map mkCcOpp

/-- The parent-context keywords checked against the lowercased full text. -/
def PARENT_CONTEXT : List String :=
  ["son", "daughter", "kid", "child", "12yo", "13yo", "14yo", "hs", "my boy"]

/-- `full_text = f"{p['title']} {p.get('selftext', '')}".lower()`. -/
def fullTextOf (p : RedditPost) : List Char :=
  lowerStr (p.title ++ " " ++ p.selftext)

/-- Whether the post reads as a parent talking about a child. -/
def isParentPost (p : RedditPost) : Bool :=
  PARENT_CONTEXT.any (fun k => occursIn k.data (fullTextOf p))

/-- The per-post classification inside `get_reddit_monitor`: parent posts
are checked against `WEALTH_KEYWORDS` first, then `PAIN_KEYWORDS`;
anything else is dropped.  `is_relevant` re-lowercases the already
lowercased full text, as the Python does. -/
def redditOppOf (sub : String) (p : RedditPost) : Option Opp :=
  if isParentPost p then
    if is_relevant (String.mk (fullTextOf p)) WEALTH_KEYWORDS then
      some { source := "Reddit (r/" ++ sub ++ ")", title := p.title,
             url := "https://www.reddit.com" ++ p.permalink,
             summary := "💰 Investment/Advisory Question", type := "wealth" }
    else if is_relevant (String.mk (fullTextOf p)) PAIN_KEYWORDS then
      some { source := "Reddit (r/" ++ sub ++ ")", title := p.title,
             url := "https://www.reddit.com" ++ p.permalink,
             summary := "❤️ Parent Pain Point (Confidence/Politics)", type := "pain" }
    else none
  else none

/-- A fetched subreddit listing; `Except.error` models the per-subreddit
try/except catching a failed request. -/
abbrev SubFetch := String × Except String (List RedditPost)

/-- The subreddits scanned, in order. -/
def subreddits : List String :=
  ["BasketballTips", "YouthSports", "Parenting", "basketballcoach"]

/-- `get_reddit_monitor` applied to the fetched listings (one per
subreddit, in `subreddits` order): each subreddit has its own
try/except, so one failed subreddit contributes nothing. -/
def get_reddit_monitor (fetches : List SubFetch) : List Opp :=
  fetches.flatMap (fun f =>
    match f.2 with
    | .error _ => []
    | .ok posts => posts.filterMap (redditOppOf f.1))

/-- Insert-or-overwrite on an association list, exactly Python dict
assignment: an existing key keeps its position and gets the new value, a
new key is appended at the end. -/
def updAssoc (d : List (String × Opp)) (u : String) (o : Opp) : List (String × Opp) :=
  match d with
  | [] => [(u, o)]
  | (k, v) :: rest => if k = u then (k, o) :: rest else (k, v) :: updAssoc rest u o

/-- The dict comprehension `{opp['url']: opp for opp in found_opps}`. -/
def dictOfOpps (opps : List Opp) : List (String × Opp) :=
  opps.foldl (fun d o => updAssoc d o.url o) []

/-- `unique_opps = {opp['url']: opp for opp in found_opps}.values()`. -/
def unique_opps (opps : List Opp) : List Opp :=
  (dictOfOpps opps).map (fun p => p.2)

/-- Python dict lookup on the association-list model. -/
def lookupAssoc : List (String × Opp) → String → Option Opp
  | [], _ => none
  | (k, v) :: rest, u => if k = u then some v else lookupAssoc rest u

/-- A Slack block: `header`, `divider`, or a `section` (here `sect`)
carrying its mrkdwn text. -/
inductive Block where
  | header (text : String)
  | divider
  | sect (text : String)
  deriving DecidableEq, Repr

/-- The dynamic emoji chosen from `opp['type']` (default 🏀). -/
def emojiFor (t : String) : String :=
  if t = "wealth" then "💰"
  else if t = "pain" then "❤️"
  else if t = "partner" then "🤝"
  else if t = "industry" then "📰"
  else "🏀"

/-- The section text
`f"{emoji} *{opp['source']}*: <{opp['url']}|{opp['title']}>\n_{opp['summary']}_"`. -/
def sectionText (o : Opp) : String :=
  emojiFor o.type ++ " *" ++ o.source ++ "*: <" ++ o.url ++ "|" ++ o.title
    ++ ">\n_" ++ o.summary ++ "_"

/-- Truncation bound: `list(unique_opps)[:15]`. -/
def DISPLAY_LIMIT : Nat := 15

/-- What `send_slack_alert` emits: the fixed console heartbeat when
`found_opps` is empty, otherwise the Slack block payload. -/
inductive AlertOutput where
  | heartbeat (msg : String)
  | summary (blocks : List Block)
  deriving DecidableEq, Repr

/-- `send_slack_alert`: early return with the fixed message on an empty
`found_opps`; otherwise dedup by URL, a header carrying the unique count,
a divider, and one section per opportunity among the first 15. -/
def send_slack_alert (found_opps : List Opp) : AlertOutput :=
  if found_opps.isEmpty then
    .heartbeat "No opportunities found today."
  else
    let uniq := unique_opps found_opps
    .summary
      ([Block.header ("🚀 PDC Daily Monitor: " ++ toString uniq.length ++ " Leads"),
        Block.divider]
       ++ (uniq.take DISPLAY_LIMIT).map (fun o => Block.sect (sectionText o)))

/-- The `found_opps` accumulator after the five source calls of the main
block, in source-processing order. -/
def collect_all (now : Int) (hoopFeed jobFeed partnerFeed ncaaFeed ccFeed : Feed)
    (redditFetches : List SubFetch) : List Opp :=
  get_hoopdirt_news now hoopFeed
    ++ get_google_alerts jobFeed partnerFeed
    ++ get_ncaa_market ncaaFeed
    ++ get_college_confidential ccFeed
    ++ get_reddit_monitor redditFetches

/-- The whole `__main__` run: collect from every source, then alert. -/
def run_main (now : Int) (hoopFeed jobFeed partnerFeed ncaaFeed ccFeed : Feed)
    (redditFetches : List SubFetch) : AlertOutput :=
  send_slack_alert (collect_all now hoopFeed jobFeed partnerFeed ncaaFeed ccFeed redditFetches)

/-- Specification-side definition, following the spec's words only (the
code contains no ranking): the display priority the spec assigns to each
category — lead/pain and wealth rank before partner, partner before
industry/job.  Lower is higher priority. -/
def specPriority (t : String) : Nat :=
  if t = "pain" then 0
  else if t = "wealth" then 0
  else if t = "partner" then 1
  else 2

/-- First-occurrence subsequence of a list of URLs, skipping those already
`seen`: characterizes Python dict key order (discovery order). -/
def firstOccsFrom (seen : List String) : List String → List String
  | [] => []
  | u :: us =>
    if u ∈ seen then firstOccsFrom seen us
    else u :: firstOccsFrom (u :: seen) us

/-! ## Helper lemmas on the dict model -/

theorem lookupAssoc_updAssoc (d : List (String × Opp)) (k u : String) (o : Opp) :
    lookupAssoc (updAssoc d k o) u = if k = u then some o else lookupAssoc d u := by
  induction d with
  | nil => simp [updAssoc, lookupAssoc]
  | cons p rest ih =>
    obtain ⟨k', v'⟩ := p
    by_cases hk : k' = k
    · subst hk
      simp only [updAssoc, if_pos rfl, lookupAssoc]
      by_cases hu : k' = u
      · simp [hu]
      · simp [hu]
    · simp only [updAssoc, if_neg hk, lookupAssoc]
      by_cases hu : k' = u
      · subst hu
        have : ¬ k = k' := fun h => hk h.symm
        simp [lookupAssoc, this]
      · simp [lookupAssoc, hu, ih]

theorem lookupAssoc_foldl (l : List Opp) (d : List (String × Opp)) (u : String) :
    lookupAssoc (l.foldl (fun a o => updAssoc a o.url o) d) u =
      ((l.reverse.find? (fun o => decide (o.url = u))).or (lookupAssoc d u)) := by
  induction l generalizing d with
  | nil => simp
  | cons o t ih =>
    simp only [List.foldl_cons, ih, List.reverse_cons, List.find?_append]
    by_cases h : t.reverse.find? (fun o => decide (o.url = u)) = none
    · simp only [h, Option.or, List.find?]
      by_cases hu : o.url = u
      · simp [hu, lookupAssoc_updAssoc]
      · simp [hu, lookupAssoc_updAssoc]
    · obtain ⟨x, hx⟩ := Option.ne_none_iff_exists'.mp h
      simp [hx, Option.or]

theorem keys_updAssoc (d : List (String × Opp)) (k : String) (o : Opp) :
    (updAssoc d k o).map Prod.fst =
      if k ∈ d.map Prod.fst then d.map Prod.fst else d.map Prod.fst ++ [k] := by
  induction d with
  | nil => simp [updAssoc]
  | cons p rest ih =>
    obtain ⟨k', v'⟩ := p
    by_cases hk : k' = k
    · subst hk
      simp [updAssoc]
    · have hk' : ¬ k = k' := fun h => hk h.symm
      simp only [updAssoc, if_neg hk, List.map_cons, List.mem_cons, ih]
      by_cases hmem : k ∈ rest.map Prod.fst
      · simp [hmem, hk']
      · simp [hmem, hk']

theorem firstOccsFrom_congr (l : List String) (s₁ s₂ : List String)
    (h : ∀ x, x ∈ s₁ ↔ x ∈ s₂) : firstOccsFrom s₁ l = firstOccsFrom s₂ l := by
  induction l generalizing s₁ s₂ with
  | nil => rfl
  | cons u us ih =>
    by_cases hu : u ∈ s₁
    · have hu₂ : u ∈ s₂ := (h u).mp hu
      simp [firstOccsFrom, hu, hu₂, ih s₁ s₂ h]
    · have hu₂ : u ∉ s₂ := fun hx => hu ((h u).mpr hx)
      have hstep : ∀ x, x ∈ u :: s₁ ↔ x ∈ u :: s₂ := by
        intro x
        simp [List.mem_cons, h x]
      simp [firstOccsFrom, hu, hu₂, ih (u :: s₁) (u :: s₂) hstep]

theorem keys_foldl (l : List Opp) (d : List (String × Opp)) :
    (l.foldl (fun a o => updAssoc a o.url o) d).map Prod.fst =
      d.map Prod.fst ++ firstOccsFrom (d.map Prod.fst) (l.map (fun o => o.url)) := by
  induction l generalizing d with
  | nil => simp [firstOccsFrom]
  | cons o t ih =>
    simp only [List.foldl_cons, List.map_cons, ih]
    by_cases hmem : o.url ∈ d.map Prod.fst
    · simp [keys_updAssoc, hmem, firstOccsFrom]
    · have hkeys : (updAssoc d o.url o).map Prod.fst = d.map Prod.fst ++ [o.url] := by
        simp [keys_updAssoc, hmem]
      have hcongr : firstOccsFrom (d.map Prod.fst ++ [o.url]) (t.map (fun o => o.url)) =
          firstOccsFrom (o.url :: d.map Prod.fst) (t.map (fun o => o.url)) := by
        apply firstOccsFrom_congr
        intro x
        simp [List.mem_append, List.mem_cons, or_comm]
      simp [hkeys, hcongr, firstOccsFrom, hmem, List.append_assoc]

theorem mem_firstOccsFrom (l : List String) (seen : List String) (u : String)
    (h : u ∈ firstOccsFrom seen l) : u ∉ seen := by
  induction l generalizing seen with
  | nil => simp [firstOccsFrom] at h
  | cons x xs ih =>
    by_cases hx : x ∈ seen
    · exact ih seen (by simpa [firstOccsFrom, hx] using h)
    · simp only [firstOccsFrom, if_neg hx, List.mem_cons] at h
      rcases h with h | h
      · subst h
        exact hx
      · intro hmem
        exact ih (x :: seen) h (List.mem_cons_of_mem x hmem)

theorem nodup_firstOccsFrom (l : List String) (seen : List String) :
    (firstOccsFrom seen l).Nodup := by
  induction l generalizing seen with
  | nil => simp [firstOccsFrom]
  | cons x xs ih =>
    by_cases hx : x ∈ seen
    · simpa [firstOccsFrom, hx] using ih seen
    · simp only [firstOccsFrom, if_neg hx, List.nodup_cons]
      refine ⟨fun hmem => ?_, ih (x :: seen)⟩
      exact mem_firstOccsFrom xs (x :: seen) x hmem (List.mem_cons_self x seen)

theorem mem_updAssoc (d : List (String × Opp)) (k : String) (o : Opp) (p : String × Opp) :
    p ∈ updAssoc d k o → p = (k, o) ∨ p ∈ d := by
  induction d with
  | nil => intro hp; simp [updAssoc] at hp; simp [hp]
  | cons q rest ih =>
    obtain ⟨k', v'⟩ := q
    intro hp
    by_cases hk : k' = k
    · rw [updAssoc, if_pos hk] at hp
      rcases List.mem_cons.mp hp with h | h
      · left; rw [h, hk]
      · right; exact List.mem_cons_of_mem _ h
    · rw [updAssoc, if_neg hk] at hp
      rcases List.mem_cons.mp hp with h | h
      · right; rw [h]; exact List.mem_cons_self _ _
      · rcases ih h with h' | h'
        · left; exact h'
        · right; exact List.mem_cons_of_mem _ h'

theorem url_eq_key_dictOfOpps (opps : List Opp) :
    ∀ p ∈ dictOfOpps opps, p.2.url = p.1 := by
  have main : ∀ (l : List Opp) (d : List (String × Opp)),
      (∀ p ∈ d, p.2.url = p.1) →
      ∀ p ∈ l.foldl (fun a o => updAssoc a o.url o) d, p.2.url = p.1 := by
    intro l
    induction l with
    | nil => intro d hd; simpa using hd
    | cons o t ih =>
      intro d hd
      refine ih (updAssoc d o.url o) ?_
      intro p hp
      rcases mem_updAssoc d o.url o p hp with h | h
      · rw [h]
      · exact hd p h
  exact main opps [] (by simp)

/-- Replace an entry's publish date (used to state that a source ignores dates). -/
def setPub (g : Entry → Option Int) (e : Entry) : Entry :=
  { e with published := g e }

/-- Replace a Reddit post's date. -/
def setCreated (g : RedditPost → Int) (p : RedditPost) : RedditPost :=
  { p with created := g p }

/-- Replace the dates of every post of a fetched subreddit listing. -/
def setPostDates (g : RedditPost → Int) (f : SubFetch) : SubFetch :=
  (f.1, Except.map (fun posts => posts.map (setCreated g)) f.2)

theorem googleQuery_setPub (s t : String) (g : Entry → Option Int) (l : List Entry) :
    googleQuery s t (.ok (l.map (setPub g))) = googleQuery s t (.ok l) := by
  simp only [googleQuery, ← List.map_take, List.map_map]
  exact List.map_congr_left (fun e _ => rfl)

theorem ncaa_setPub (g : Entry → Option Int) (l : List Entry) :
    get_ncaa_market (.ok (l.map (setPub g))) = get_ncaa_market (.ok l) := by
  have hcond : ncaaCond ∘ setPub g = ncaaCond := funext (fun e => rfl)
  simp only [get_ncaa_market, List.filter_map, hcond, List.map_map]
  exact List.map_congr_left (fun e _ => rfl)

theorem cc_setPub (g : Entry → Option Int) (l : List Entry) :
    get_college_confidential (.ok (l.map (setPub g))) = get_college_confidential (.ok l) := by
  simp only [get_college_confidential, ← List.map_take, List.map_map]
  exact List.map_congr_left (fun e _ => rfl)

theorem reddit_setPostDates (g : RedditPost → Int) (fetches : List SubFetch) :
    get_reddit_monitor (fetches.map (setPostDates g)) = get_reddit_monitor fetches := by
  induction fetches with
  | nil => rfl
  | cons f t ih =>
    obtain ⟨sub, res⟩ := f
    cases res with
    | error m => simpa [get_reddit_monitor, setPostDates, Except.map] using ih
    | ok posts =>
      have hcomp : redditOppOf sub ∘ setCreated g = redditOppOf sub := funext (fun p => rfl)
      simpa [get_reddit_monitor, setPostDates, Except.map, hcomp] using ih

theorem hoopLoop_append_none (now : Int) (pre : List Entry) (e : Entry) (post : List Entry)
    (hpre : ∀ x ∈ pre, x.published.isSome) (he : e.published = none) :
    hoopLoop now (pre ++ e :: post) = hoopLoop now pre := by
  induction pre with
  | nil => simp [hoopLoop, he]
  | cons x xs ih =>
    have hx : x.published.isSome := hpre x (List.mem_cons_self x xs)
    obtain ⟨t, ht⟩ := Option.isSome_iff_exists.mp hx
    have ih' := ih (fun y hy => hpre y (List.mem_cons_of_mem x hy))
    by_cases hage : now - t > HOOP_WINDOW
    · simp [hoopLoop, ht, hage, ih']
    · simp [hoopLoop, ht, hage, ih']

/-! ## Shared characterizations -/

theorem unique_opps_urls_firstOccs (opps : List Opp) :
    (unique_opps opps).map (fun o => o.url) = firstOccsFrom [] (opps.map (fun o => o.url)) := by
  have hurl := url_eq_key_dictOfOpps opps
  have hmap : (unique_opps opps).map (fun o => o.url) = (dictOfOpps opps).map Prod.fst := by
    simp only [unique_opps, List.map_map]
    exact List.map_congr_left (fun p hp => hurl p hp)
  rw [hmap]
  simpa [dictOfOpps] using keys_foldl opps []

/-! ## Claims -/

/-- An industry opportunity used to exhibit the dedup tie-break. -/
def c1A : Opp :=
  { source := "HoopDirt", title := "first record", url := "https://x/1",
    summary := "🏀 Coaching Move / Industry Rumor", type := "industry" }

/-- A wealth opportunity sharing `c1A`'s URL, produced later. -/
def c1B : Opp :=
  { source := "College Confidential", title := "second record", url := "https://x/1",
    summary := "💰 High-Net-Worth Discussion", type := "wealth" }

/-- C1 counterexample: two classified opportunities share a URL, and the
deduplicated output retains the LATER one, not the first one produced in
source-processing order — the dict comprehension overwrites the value. -/
theorem c1_counterexample :
    unique_opps [c1A, c1B] = [c1B] ∧ c1B ≠ c1A := by decide

/-- C1 (amended): for every URL, the deduplicated dict maps it to the LAST
opportunity with that URL in source-processing order (the comprehension's
later assignments overwrite earlier ones); a URL never produced maps to
nothing. -/
theorem c1_dedup_keeps_last (opps : List Opp) (u : String) :
    lookupAssoc (dictOfOpps opps) u = opps.reverse.find? (fun o => decide (o.url = u)) := by
  have h := lookupAssoc_foldl opps [] u
  simpa [dictOfOpps, lookupAssoc] using h

/-- A HoopDirt entry with a parseable, fresh date. -/
def c2Good : Entry :=
  { title := "Coach hired at State", link := "https://hoopdirt.com/a", published := some 1000 }

/-- A HoopDirt entry whose publish date is absent/unparsable. -/
def c2Bad : Entry :=
  { title := "Undated move", link := "https://hoopdirt.com/b", published := none }

/-- A fresh HoopDirt entry appearing after the unparsable one. -/
def c2After : Entry :=
  { title := "Another hire", link := "https://hoopdirt.com/c", published := some 1000 }

/-- C2 counterexample: an entry with an unparsable publish date is NOT
retained — `strptime` raises, the source-level handler catches it, and
both that entry and its later sibling `c2After` are dropped. -/
theorem c2_counterexample :
    get_hoopdirt_news 1000 (.ok [c2Good, c2Bad, c2After]) = [mkHoopOpp c2Good]
    ∧ mkHoopOpp c2Bad ∉ get_hoopdirt_news 1000 (.ok [c2Good, c2Bad, c2After])
    ∧ mkHoopOpp c2After ∉ get_hoopdirt_news 1000 (.ok [c2Good, c2Bad, c2After]) := by decide

/-- C2 (amended): a feed entry with an absent or unparsable publish date
fails closed, not open: the date error aborts the HoopDirt loop, dropping
that entry and every later sibling of the same source, while entries
already collected are kept; the failure is caught at the source boundary. -/
theorem c2_unparsable_date_aborts_source (now : Int) (pre : List Entry) (e : Entry)
    (post : List Entry) (hpre : ∀ x ∈ pre, x.published.isSome) (he : e.published = none) :
    get_hoopdirt_news now (.ok (pre ++ e :: post)) = get_hoopdirt_news now (.ok pre) := by
  simpa [get_hoopdirt_news] using hoopLoop_append_none now pre e post hpre he

/-- Witness for C2's amended theorem at a concrete feed. -/
theorem c2_witness :
    (∀ x ∈ [c2Good], x.published.isSome) ∧ c2Bad.published = none ∧
    get_hoopdirt_news 1000 (.ok ([c2Good] ++ c2Bad :: [c2After]))
      = get_hoopdirt_news 1000 (.ok [c2Good]) :=
  ⟨by decide, rfl,
   c2_unparsable_date_aborts_source 1000 [c2Good] c2Bad [c2After] (by decide) rfl⟩

/-- An industry opportunity discovered first (HoopDirt runs first). -/
def c3Ind : Opp :=
  { source := "HoopDirt", title := "Coach hired", url := "https://hoopdirt.com/x",
    summary := "🏀 Coaching Move / Industry Rumor", type := "industry" }

/-- A pain opportunity discovered later (Reddit runs last). -/
def c3Pain : Opp :=
  { source := "Reddit (r/Parenting)", title := "My son lost his confidence",
    url := "https://www.reddit.com/r/Parenting/1",
    summary := "❤️ Parent Pain Point (Confidence/Politics)", type := "pain" }

/-- C3 counterexample: the final output keeps the industry opportunity
before the pain opportunity even though the spec's priority ranks pain
above industry — no priority sort exists in the code. -/
theorem c3_counterexample :
    unique_opps [c3Ind, c3Pain] = [c3Ind, c3Pain]
    ∧ specPriority c3Pain.type < specPriority c3Ind.type
    ∧ ¬ (unique_opps [c3Ind, c3Pain]).Pairwise
        (fun a b => specPriority a.type ≤ specPriority b.type) := by decide

/-- C3 (amended): the final output order is NOT sorted by category
priority; it is exactly the discovery order — the URLs of the
deduplicated output are the first occurrences, in order, of the URLs of
the aggregated collection.  Being a pure function of the input, a re-run
on the same input yields the identical ordering. -/
theorem c3_order_is_discovery_order (opps : List Opp) :
    (unique_opps opps).map (fun o => o.url) = firstOccsFrom [] (opps.map (fun o => o.url)) :=
  unique_opps_urls_firstOccs opps

/-- C4: a parent post whose text matches both the wealth and the pain
keyword sets is classified by the first-evaluated rule — wealth — with
its label, deterministically. -/
theorem c4_wealth_precedes_pain (sub : String) (p : RedditPost)
    (hparent : isParentPost p = true)
    (hw : is_relevant (String.mk (fullTextOf p)) WEALTH_KEYWORDS = true)
    (hpain : is_relevant (String.mk (fullTextOf p)) PAIN_KEYWORDS = true) :
    redditOppOf sub p =
      some { source := "Reddit (r/" ++ sub ++ ")", title := p.title,
             url := "https://www.reddit.com" ++ p.permalink,
             summary := "💰 Investment/Advisory Question", type := "wealth" } := by
  simp [redditOppOf, hparent, hw]

/-- A Reddit post matching the parent context, a wealth keyword
("recruiting service") and a pain keyword ("quit"). -/
def c4Post : RedditPost :=
  { title := "My son wants to quit",
    selftext := "Is a recruiting service worth the money for showcase events",
    permalink := "/r/YouthSports/comments/abc", created := 0 }

/-- Witness for C4 at a concrete both-categories post. -/
theorem c4_witness :
    isParentPost c4Post = true
    ∧ is_relevant (String.mk (fullTextOf c4Post)) WEALTH_KEYWORDS = true
    ∧ is_relevant (String.mk (fullTextOf c4Post)) PAIN_KEYWORDS = true
    ∧ redditOppOf "YouthSports" c4Post =
        some { source := "Reddit (r/" ++ "YouthSports" ++ ")", title := c4Post.title,
               url := "https://www.reddit.com" ++ c4Post.permalink,
               summary := "💰 Investment/Advisory Question", type := "wealth" } :=
  ⟨by decide, by decide, by decide,
   c4_wealth_precedes_pain "YouthSports" c4Post (by decide) (by decide) (by decide)⟩

/-- C5: an entry with a parseable publish date passes the freshness check
exactly when its age is at most the 24-hour window: an entry exactly
24 hours old is kept, one strictly older is dropped. -/
theorem c5_freshness_boundary (now t : Int) (e : Entry) (h : e.published = some t) :
    get_hoopdirt_news now (.ok [e]) =
      (if now - t ≤ HOOP_WINDOW then [mkHoopOpp e] else []) := by
  by_cases hage : now - t > HOOP_WINDOW
  · simp [get_hoopdirt_news, hoopLoop, h, hage, not_le.mpr hage]
  · simp [get_hoopdirt_news, hoopLoop, h, hage, not_lt.mp (by simpa using hage)]

/-- A HoopDirt entry dated at epoch 0, used at the exact window edge. -/
def c5E : Entry :=
  { title := "Boundary move", link := "https://hoopdirt.com/edge", published := some 0 }

/-- Witness for C5 at the exact 24-hour boundary: the entry is kept. -/
theorem c5_witness :
    c5E.published = some 0
    ∧ get_hoopdirt_news 86400 (.ok [c5E]) = [mkHoopOpp c5E] := by
  refine ⟨rfl, ?_⟩
  rw [c5_freshness_boundary 86400 0 c5E rfl]
  decide

/-- C6: the URL values of the deduplicated output — and hence of the at
most 15 opportunities in the emitted summary — are pairwise distinct. -/
theorem c6_urls_pairwise_distinct (opps : List Opp) :
    (unique_opps opps).Pairwise (fun a b => a.url ≠ b.url)
    ∧ ((unique_opps opps).take DISPLAY_LIMIT).Pairwise (fun a b => a.url ≠ b.url) := by
  have hnodup : ((unique_opps opps).map (fun o => o.url)).Nodup := by
    rw [unique_opps_urls_firstOccs]
    exact nodup_firstOccsFrom _ _
  have hpair : (unique_opps opps).Pairwise (fun a b => a.url ≠ b.url) :=
    List.pairwise_map.mp hnodup
  exact ⟨hpair, List.Pairwise.sublist (List.take_sublist _ _) hpair⟩

/-- C7: with more than 15 unique surviving opportunities, the summary is a
header carrying the total unique count, a divider, and one section per
opportunity among exactly the first 15 of the output order. -/
theorem c7_truncation (opps : List Opp) (h : DISPLAY_LIMIT < (unique_opps opps).length) :
    send_slack_alert opps =
      .summary
        ([Block.header ("🚀 PDC Daily Monitor: " ++ toString (unique_opps opps).length ++ " Leads"),
          Block.divider]
         ++ ((unique_opps opps).take DISPLAY_LIMIT).map (fun o => Block.sect (sectionText o)))
    ∧ ((unique_opps opps).take DISPLAY_LIMIT).length = DISPLAY_LIMIT := by
  have hne : opps.isEmpty = false := by
    cases hop : opps.isEmpty
    · rfl
    · exfalso
      have hnil : opps = [] := by simpa using hop
      subst hnil
      simp [unique_opps, dictOfOpps] at h
  refine ⟨?_, ?_⟩
  · simp [send_slack_alert, hne]
  · rw [List.length_take]
    exact Nat.min_eq_left (Nat.le_of_lt h)

/-- Sixteen distinct-URL opportunities, to exercise the truncation. -/
def c7Opps : List Opp :=
  (List.range 16).map (fun i =>
    { source := "NCAA Market", title := "Basketball role",
      url := "https://ncaa/" ++ toString i,
      summary := "🎓 Collegiate Role", type := "industry" })

/-- Witness for C7 on sixteen unique opportunities. -/
theorem c7_witness :
    DISPLAY_LIMIT < (unique_opps c7Opps).length
    ∧ (send_slack_alert c7Opps =
        .summary
          ([Block.header
              ("🚀 PDC Daily Monitor: " ++ toString (unique_opps c7Opps).length ++ " Leads"),
            Block.divider]
           ++ ((unique_opps c7Opps).take DISPLAY_LIMIT).map (fun o => Block.sect (sectionText o)))
       ∧ ((unique_opps c7Opps).take DISPLAY_LIMIT).length = DISPLAY_LIMIT) :=
  ⟨by decide, c7_truncation c7Opps (by decide)⟩

/-- C8: a run with zero surviving opportunities emits the fixed heartbeat
message, never a summary payload (no "0 Leads" header). -/
theorem c8_empty_run_heartbeat :
    send_slack_alert [] = .heartbeat "No opportunities found today."
    ∧ (∀ blocks : List Block, send_slack_alert [] ≠ .summary blocks)
    ∧ run_main 0 (.ok []) (.ok []) (.ok []) (.ok []) (.ok []) [] =
        .heartbeat "No opportunities found today." := by
  refine ⟨rfl, ?_, rfl⟩
  intro blocks h
  exact AlertOutput.noConfusion h

/-- A fresh HoopDirt entry collected before a failure. -/
def c9Good : Entry :=
  { title := "Hire announced", link := "https://hoopdirt.com/g", published := some 500 }

/-- A HoopDirt entry whose date parse fails mid-loop. -/
def c9Bad : Entry :=
  { title := "Bad date", link := "https://hoopdirt.com/bd", published := none }

/-- C9 counterexample: a parse failure partway through a source does NOT
yield zero entries from that source — the entry appended before the
failure survives. -/
theorem c9_counterexample :
    c9Bad.published = none
    ∧ get_hoopdirt_news 500 (.ok [c9Good, c9Bad]) ≠ []
    ∧ (get_hoopdirt_news 500 (.ok [c9Good, c9Bad])).length = 1 := by decide

/-- C9 (amended): a FETCH failure in any source yields zero entries from
it (for Google News and Reddit, per query/subreddit), and a mid-loop
PARSE failure yields exactly the entries collected before the failure
point; in both cases the run continues, and each source's contribution
to the aggregated collection depends only on that source's own fetch,
so the other sources' opportunities are identical to a run in which the
failing source is absent. -/
theorem c9_failure_isolation (now : Int) (m : String)
    (pre : List Entry) (e : Entry) (post : List Entry)
    (hpre : ∀ x ∈ pre, x.published.isSome) (he : e.published = none)
    (jf pf nf cf : Feed) (rpre rpost : List SubFetch) (sub : String) :
    get_hoopdirt_news now (.error m) = []
    ∧ get_google_alerts (.error m) pf = get_google_alerts (.ok []) pf
    ∧ get_google_alerts jf (.error m) = get_google_alerts jf (.ok [])
    ∧ get_ncaa_market (.error m) = []
    ∧ get_college_confidential (.error m) = []
    ∧ get_reddit_monitor (rpre ++ (sub, .error m) :: rpost)
        = get_reddit_monitor (rpre ++ (sub, .ok []) :: rpost)
    ∧ get_hoopdirt_news now (.ok (pre ++ e :: post)) = get_hoopdirt_news now (.ok pre)
    ∧ (∀ hf : Feed, collect_all now hf jf pf nf cf (rpre ++ rpost)
        = get_hoopdirt_news now hf ++ get_google_alerts jf pf ++ get_ncaa_market nf
          ++ get_college_confidential cf ++ get_reddit_monitor (rpre ++ rpost)) := by
  refine ⟨rfl, rfl, rfl, rfl, rfl, ?_, ?_, fun hf => rfl⟩
  · simp [get_reddit_monitor, List.flatMap_append]
  · simpa [get_hoopdirt_news] using hoopLoop_append_none now pre e post hpre he

/-- Witness for C9's amended theorem: a concrete mid-source parse
failure keeps the earlier entry only. -/
theorem c9_witness :
    (∀ x ∈ [c9Good], x.published.isSome) ∧ c9Bad.published = none
    ∧ get_hoopdirt_news 500 (.ok ([c9Good] ++ c9Bad :: []))
        = get_hoopdirt_news 500 (.ok [c9Good]) :=
  ⟨by decide, rfl,
   (c9_failure_isolation 500 "boom" [c9Good] c9Bad [] (by decide) rfl
     (.ok []) (.ok []) (.ok []) (.ok []) [] [] "Parenting").2.2.2.2.2.2.1⟩

/-- C10: the Google News, NCAA Market, College Confidential and Reddit
adapters ignore publish dates entirely — rewriting every date leaves
their output unchanged — while the HoopDirt adapter does not. -/
theorem c10_only_hoopdirt_filters_by_date (jf pf nf cf : List Entry)
    (fetches : List SubFetch) (g : Entry → Option Int) (gr : RedditPost → Int) :
    get_google_alerts (.ok (jf.map (setPub g))) (.ok (pf.map (setPub g)))
        = get_google_alerts (.ok jf) (.ok pf)
    ∧ get_ncaa_market (.ok (nf.map (setPub g))) = get_ncaa_market (.ok nf)
    ∧ get_college_confidential (.ok (cf.map (setPub g))) = get_college_confidential (.ok cf)
    ∧ get_reddit_monitor (fetches.map (setPostDates gr)) = get_reddit_monitor fetches
    ∧ ∃ now : Int, ∃ e : Entry, ∃ gh : Entry → Option Int,
        get_hoopdirt_news now (.ok [setPub gh e]) ≠ get_hoopdirt_news now (.ok [e]) := by
  refine ⟨?_, ncaa_setPub g nf, cc_setPub g cf, reddit_setPostDates gr fetches, ?_⟩
  · simp only [get_google_alerts, googleQuery_setPub]
  · exact ⟨0, { title := "Old move", link := "https://hoopdirt.com/old", published := some 0 },
      fun _ => some (-172800), by decide⟩
